import Mathlib

/-!
Shallow embedding of the `s3-bang` bulk bucket-deletion utility
(`src/src/main.rs`) and verification of its specification claims.

The embedding models the program's pure logic directly; network calls to
the storage backend are modelled as explicit functions supplied by a
`BucketBackend` record, terminal prompts as explicit inputs, and console
output / API calls as an event trace.
-/

namespace S3Bang

/-- Character-list version of Rust `str::starts_with`: `startsWithList p s`
is `true` when `p` is an initial segment of `s`. -/
def startsWithList : List Char → List Char → Bool
  | [], _ => true
  | _ :: _, [] => false
  | p :: ps, c :: cs => p == c && startsWithList ps cs

/-- Predicate `containsAt pat s`: it is `true` when `pat` occurs as a contiguous
subsequence of `s` (at any position). -/
def containsAt : List Char → List Char → Bool
  | pat, [] => startsWithList pat []
  | pat, c :: cs => startsWithList pat (c :: cs) || containsAt pat cs

/-- Embedding of Rust `str::contains` (substring containment) used by
`protect_names_validator`. -/
def strContains (s pat : String) : Bool :=
  containsAt pat.toList s.toList

/-- Embedding of `const MAX_BUCKETS: u8 = 5;` from `src/src/main.rs`. -/
def MAX_BUCKETS : Nat := 5

/-- Embedding of `const PROTECTED_BUCKET_NAMES: &[&str]` from `src/src/main.rs`. -/
def PROTECTED_BUCKET_NAMES : List String := ["backup", "do-not-delete", "console"]

/-- Embedding of `inquire::validator::Validation`: a selection is either
`Valid` or `Invalid` with a human-readable reason. -/
inductive Validation where
  | Valid : Validation
  | Invalid : String → Validation
deriving DecidableEq, Repr

/-- Embedding of `protect_names_validator`: `Invalid` when any candidate
name contains, as a substring, any entry of `PROTECTED_BUCKET_NAMES`.
The validators only inspect the `.value` of each `ListOption`, so they
are modelled on the list of selected name strings. -/
def protect_names_validator (options : List String) : Validation :=
  let invalid := options.any fun option =>
    PROTECTED_BUCKET_NAMES.any fun protectedName => strContains option protectedName
  match invalid with
  | false => Validation.Valid
  | true => Validation.Invalid "Cannot delete buckets with protected names"

/-- Embedding of `length_validator`: `Invalid` when more than `MAX_BUCKETS`
candidates are selected, `Invalid` when none are, otherwise `Valid`. -/
def length_validator (options : List String) : Validation :=
  let length := options.length
  if length > MAX_BUCKETS then
    Validation.Invalid
      ("Maximum of " ++ toString MAX_BUCKETS ++ " selections. You have " ++ toString length)
  else if options.isEmpty then
    Validation.Invalid "Must select a bucket"
  else
    Validation.Valid

/-- Embedding of `wrapper_validator`: runs `protect_names_validator` then
`length_validator`, returning the first `Invalid` outcome, else `Valid`. -/
def wrapper_validator (options : List String) : Validation :=
  match protect_names_validator options with
  | Validation.Invalid error => Validation.Invalid error
  | Validation.Valid =>
    match length_validator options with
    | Validation.Invalid error => Validation.Invalid error
    | Validation.Valid => Validation.Valid

example : wrapper_validator ["my-backup-x"] =
    Validation.Invalid "Cannot delete buckets with protected names" := by decide

example : wrapper_validator [] = Validation.Invalid "Must select a bucket" := by decide

example : wrapper_validator ["a", "b", "c", "d", "e", "f"] =
    Validation.Invalid "Maximum of 5 selections. You have 6" := by decide

example : wrapper_validator ["a", "b"] = Validation.Valid := by decide

/-- Observable events of a run: console output lines, terminal prompts
shown, and storage-backend API calls issued. -/
inductive Event where
  | PrintLine (line : String)
  | ErrLine (line : String)
  | MultiSelectShown (found : List String)
  | ConfirmShown (message : String)
  | ListVersionsCall (bucket : String)
  | DeleteObjectCall (bucket key versionId : String)
  | DeleteBucketCall (bucket : String)
deriving DecidableEq, Repr

/-- An entry of the `list_object_versions` response: both `ObjectVersion`
and `DeleteMarkerEntry` in the SDK carry an optional key and an optional
version id, which is all this program reads. -/
structure ObjectVersion where
  key : Option String
  version_id : Option String
deriving DecidableEq, Repr

/-- The `list_object_versions` response: the SDK returns the ordinary
versions and the delete markers in two separate optional lists. -/
structure ListObjectVersionsOutput where
  versions : Option (List ObjectVersion)
  delete_markers : Option (List ObjectVersion)
deriving DecidableEq, Repr

/-- The storage backend as seen by the executor: each API call is a
function from its arguments to the backend's (possibly failing) reply. -/
structure BucketBackend where
  listObjectVersions : String → Except String ListObjectVersionsOutput
  deleteObject : String → String → String → Except String Unit
  deleteBucket : String → Except String Unit

/-- The deletion loop inside `empty_bucket`: issue one `delete_object`
call per entry, defaulting missing keys and version ids to `""`
(`unwrap_or_default`); a failing call aborts the rest (the `?` operator).
Returns the trace of calls issued and the result. -/
def deleteVersions (be : BucketBackend) (name : String) :
    List ObjectVersion → List Event × Except String Unit
  | [] => ([], Except.ok ())
  | object :: rest =>
    let k := object.key.getD ""
    let v := object.version_id.getD ""
    match be.deleteObject name k v with
    | Except.error e => ([Event.DeleteObjectCall name k v], Except.error e)
    | Except.ok _ =>
      let r := deleteVersions be name rest
      (Event.DeleteObjectCall name k v :: r.1, r.2)

/-- Embedding of `empty_bucket`: list the object versions of the bucket
(a failing call aborts with its error), then delete each entry of the
response's `versions` list (`unwrap_or_default` on a missing list). -/
def empty_bucket (be : BucketBackend) (name : String) : List Event × Except String Unit :=
  match be.listObjectVersions name with
  | Except.error e => ([Event.ListVersionsCall name], Except.error e)
  | Except.ok objects =>
    let r := deleteVersions be name (objects.versions.getD [])
    (Event.ListVersionsCall name :: r.1, r.2)

/-- Embedding of `delete_bucket`: a single `delete_bucket` API call. -/
def delete_bucket (be : BucketBackend) (name : String) : List Event × Except String Unit :=
  ([Event.DeleteBucketCall name], be.deleteBucket name)

/-- The `unwrap_or_else` handler on `empty_bucket` in `main`: a failure
is reported by printing an error line naming the bucket and the reason. -/
def emptyErrLines (bucket : String) : Except String Unit → List Event
  | Except.ok _ => []
  | Except.error err =>
    [Event.ErrLine ("Error emptying bucket " ++ bucket ++ ": " ++ err)]

/-- The `unwrap_or_else` handler on `delete_bucket` in `main`: a failure
is reported by printing an error line naming the bucket and the reason. -/
def deleteErrLines (bucket : String) : Except String Unit → List Event
  | Except.ok _ => []
  | Except.error err =>
    [Event.ErrLine ("Error deleting bucket " ++ bucket ++ ": " ++ err)]

/-- The `for bucket in selected_buckets` loop of `main`: for each bucket,
print the progress line, attempt `empty_bucket` (printing an error line on
failure), then attempt `delete_bucket` (printing an error line on
failure), and continue with the rest. -/
def run_batch (be : BucketBackend) : List String → List Event
  | [] => []
  | bucket :: rest =>
    let r1 := empty_bucket be bucket
    let r2 := delete_bucket be bucket
    Event.PrintLine ("Deleting bucket: " ++ bucket) ::
      (r1.1 ++ emptyErrLines bucket r1.2 ++ r2.1 ++ deleteErrLines bucket r2.2
        ++ run_batch be rest)

/-- A bucket record of the `list_buckets` response: the SDK exposes an
optional name, which is all this program reads. -/
structure Bucket where
  name : Option String
deriving DecidableEq, Repr

/-- The `list_buckets` response: an optional list of bucket records. -/
structure ListBucketsOutput where
  buckets : Option (List Bucket)
deriving DecidableEq, Repr

/-- The name-extraction in `list_buckets`
(`buckets.iter().map(|x| x.name().unwrap().to_owned()).collect()`):
`none` models the process-aborting panic of `unwrap` on a record whose
name is missing. -/
def extractNames : List Bucket → Option (List String)
  | [] => some []
  | b :: bs =>
    match b.name with
    | none => none
    | some n => (extractNames bs).map fun rest => n :: rest

/-- Embedding of `list_buckets`, as a function of the backend's reply to
the `list_buckets` API call: a failing call returns its error; otherwise
the names of the returned records (`unwrap_or_default` on a missing
list), where result `none` models the panic of `unwrap` on a missing
name. -/
def list_buckets (response : Except String ListBucketsOutput) :
    Option (Except String (List String)) :=
  match response with
  | Except.error e => some (Except.error e)
  | Except.ok r => (extractNames (r.buckets.getD [])).map Except.ok

/-- The external inputs of one run of `main`: the backend's reply to the
bucket-listing call, the selection the `MultiSelect` prompt returns, and
the `Confirm` prompt's reply (`none` models a prompt error, handled by
`unwrap_or(false)`). -/
structure MainInputs where
  listBucketsResponse : Except String ListBucketsOutput
  selection : List String
  confirmResponse : Option Bool

/-- The console output and prompts `main` produces between a successful
enumeration and the confirmation decision: the initial progress line, the
multi-select prompt over the found buckets, the two selection-summary
lines, and the confirmation prompt. -/
def mainHeader (found selected : List String) : List Event :=
  [Event.PrintLine "Finding buckets...",
   Event.MultiSelectShown found,
   Event.PrintLine ("Deleting " ++ toString selected.length ++ " buckets"),
   Event.PrintLine (String.intercalate "\n\t - " selected),
   Event.ConfirmShown
     ("Do you wish to proceed? This action will delete "
       ++ toString selected.length ++ " buckets")]

/-- Embedding of `main` (after client construction): enumerate buckets
(exiting 1 on a listing error), show the multi-select and confirmation
prompts, exit 1 on a non-affirmative confirmation, otherwise run the
deletion loop and print the final completion line, exiting 0. Result
`none` models a panic inside `list_buckets`; otherwise the event trace
and the process exit code. -/
def main_run (inp : MainInputs) (be : BucketBackend) : Option (List Event × Nat) :=
  match list_buckets inp.listBucketsResponse with
  | none => none
  | some (Except.error err) =>
    some ([Event.PrintLine "Finding buckets...", Event.ErrLine err], 1)
  | some (Except.ok found) =>
    let confirmation := inp.confirmResponse.getD false
    if confirmation then
      some (mainHeader found inp.selection ++ run_batch be inp.selection
        ++ [Event.PrintLine "Done! 💥"], 0)
    else
      some (mainHeader found inp.selection ++ [Event.PrintLine "Quitting"], 1)

/-- Whether an event is a storage-backend API call (as opposed to console
output or a prompt). -/
def isBackendCall : Event → Bool
  | Event.ListVersionsCall _ => true
  | Event.DeleteObjectCall _ _ _ => true
  | Event.DeleteBucketCall _ => true
  | _ => false

/-- The buckets on which a version-listing call (the start of an Empty
attempt) is issued, in trace order. -/
def listVersionTargets (tr : List Event) : List String :=
  tr.filterMap fun e => match e with
    | Event.ListVersionsCall b => some b
    | _ => none

/-- The buckets on which a bucket-deletion call is issued, in trace
order. -/
def deleteBucketTargets (tr : List Event) : List String :=
  tr.filterMap fun e => match e with
    | Event.DeleteBucketCall b => some b
    | _ => none

/-- Trace checker for the empty-before-delete invariant: scanning left to
right while accumulating the buckets already subjected to an Empty
attempt (`seen`), every bucket-deletion call must target an already-seen
bucket. -/
def emptyBeforeDelete (seen : List String) : List Event → Bool
  | [] => true
  | Event.ListVersionsCall b :: rest => emptyBeforeDelete (b :: seen) rest
  | Event.DeleteBucketCall b :: rest => seen.contains b && emptyBeforeDelete seen rest
  | _ :: rest => emptyBeforeDelete seen rest

/-- The accumulated Empty-attempt targets after scanning a trace. -/
def seenAfter (seen : List String) : List Event → List String
  | [] => seen
  | Event.ListVersionsCall b :: rest => seenAfter (b :: seen) rest
  | _ :: rest => seenAfter seen rest

/-- A concrete backend whose buckets are all empty and whose deletion
calls all succeed. -/
def okEmptyBackend : BucketBackend where
  listObjectVersions := fun _ => Except.ok ⟨some [], some []⟩
  deleteObject := fun _ _ _ => Except.ok ()
  deleteBucket := fun _ => Except.ok ()

/-- A concrete backend whose version-listing calls always fail with
"boom" while both deletion calls always succeed. -/
def failListBackend : BucketBackend where
  listObjectVersions := fun _ => Except.error "boom"
  deleteObject := fun _ _ _ => Except.ok ()
  deleteBucket := fun _ => Except.ok ()

/-- A concrete backend whose version-listing calls report no ordinary
versions but one delete marker (key "k", version id "v"), and whose
deletion calls all succeed. -/
def markerBackend : BucketBackend where
  listObjectVersions := fun _ => Except.ok ⟨some [], some [⟨some "k", some "v"⟩]⟩
  deleteObject := fun _ _ _ => Except.ok ()
  deleteBucket := fun _ => Except.ok ()

/-- A concrete backend whose version-listing calls report exactly one
ordinary version (key "k1", version id "v1") and no delete markers, and
whose deletion calls all succeed. -/
def oneVersionBackend : BucketBackend where
  listObjectVersions := fun _ => Except.ok ⟨some [⟨some "k1", some "v1"⟩], none⟩
  deleteObject := fun _ _ _ => Except.ok ()
  deleteBucket := fun _ => Except.ok ()

/-- A concrete backend whose bucket-deletion calls always fail with
"denied" while listing succeeds with empty buckets. -/
def failDeleteBackend : BucketBackend where
  listObjectVersions := fun _ => Except.ok ⟨some [], some []⟩
  deleteObject := fun _ _ _ => Except.ok ()
  deleteBucket := fun _ => Except.error "denied"

/-- Concrete run inputs: two buckets enumerated and selected, and the
confirmation prompt answered "no". -/
def cancelInputs : MainInputs where
  listBucketsResponse := Except.ok ⟨some [⟨some "my-logs-2023"⟩, ⟨some "temp-cache"⟩]⟩
  selection := ["my-logs-2023", "temp-cache"]
  confirmResponse := some false

/-- Concrete run inputs: one bucket enumerated and selected, and the
confirmation prompt answered "yes". -/
def doneInputs : MainInputs where
  listBucketsResponse := Except.ok ⟨some [⟨some "a"⟩]⟩
  selection := ["a"]
  confirmResponse := some true

/-- Concrete run inputs: the bucket-listing call fails with "netfail". -/
def errInputs : MainInputs where
  listBucketsResponse := Except.error "netfail"
  selection := []
  confirmResponse := some true

/-- C1: whenever at least one candidate name contains, as a substring, an
entry of the configured protected-names set, the validator chain returns
`Invalid` with the reason "Cannot delete buckets with protected names",
regardless of the other candidates. -/
theorem C1_protected_name_rejection (options : List String)
    (h : ∃ o ∈ options, ∃ p ∈ PROTECTED_BUCKET_NAMES, strContains o p = true) :
    wrapper_validator options =
      Validation.Invalid "Cannot delete buckets with protected names" := by
  have hany : (options.any fun option =>
      PROTECTED_BUCKET_NAMES.any fun protectedName => strContains option protectedName) = true := by
    rw [List.any_eq_true]
    obtain ⟨o, ho, p, hp, hc⟩ := h
    exact ⟨o, ho, by rw [List.any_eq_true]; exact ⟨p, hp, hc⟩⟩
  simp only [wrapper_validator, protect_names_validator, hany]

/-- Witness for C1 at the concrete selection `["a", "my-backup-x"]`. -/
theorem C1_protected_name_rejection_witness :
    wrapper_validator ["a", "my-backup-x"] =
      Validation.Invalid "Cannot delete buckets with protected names" :=
  C1_protected_name_rejection ["a", "my-backup-x"]
    ⟨"my-backup-x", by decide, "backup", by decide, by decide⟩

/-- C2: the validator chain returns `Invalid` on selections of more than
`MAX_BUCKETS` (5) names, returns `Invalid` on the empty selection, and
returns `Valid` on selections of 1 to 5 names none of which contains a
protected substring. -/
theorem C2_cardinality_check (options : List String) :
    (options.length > MAX_BUCKETS →
      ∃ reason, wrapper_validator options = Validation.Invalid reason) ∧
    (options.length = 0 →
      ∃ reason, wrapper_validator options = Validation.Invalid reason) ∧
    (1 ≤ options.length → options.length ≤ MAX_BUCKETS →
      (∀ o ∈ options, ∀ p ∈ PROTECTED_BUCKET_NAMES, strContains o p = false) →
      wrapper_validator options = Validation.Valid) := by
  refine ⟨?_, ?_, ?_⟩
  · intro hlen
    cases hpv : protect_names_validator options with
    | Valid =>
      refine ⟨"Maximum of " ++ toString MAX_BUCKETS ++ " selections. You have "
        ++ toString options.length, ?_⟩
      simp [wrapper_validator, hpv, length_validator, hlen]
    | Invalid e =>
      refine ⟨e, ?_⟩
      simp [wrapper_validator, hpv]
  · intro h0
    have hnil : options = [] := List.length_eq_zero.mp h0
    subst hnil
    exact ⟨"Must select a bucket", by decide⟩
  · intro h1 h5 hprot
    have hany : (options.any fun option =>
        PROTECTED_BUCKET_NAMES.any fun protectedName =>
          strContains option protectedName) = false := by
      simp only [List.any_eq_false, Bool.not_eq_true]
      exact hprot
    have hpv : protect_names_validator options = Validation.Valid := by
      simp only [protect_names_validator, hany]
    have hlv : length_validator options = Validation.Valid := by
      have hng : ¬ options.length > MAX_BUCKETS := not_lt.mpr h5
      have hne : options.isEmpty = false := by
        cases options with
        | nil => exact absurd h1 (by decide)
        | cons a l => rfl
      simp [length_validator, hng, hne]
    simp [wrapper_validator, hpv, hlv]

/-- Witness for C2: the three cardinality cases at concrete selections of
sizes 6, 0 and 2. -/
theorem C2_cardinality_check_witness :
    (∃ reason, wrapper_validator ["a", "b", "c", "d", "e", "f"] =
      Validation.Invalid reason) ∧
    (∃ reason, wrapper_validator [] = Validation.Invalid reason) ∧
    wrapper_validator ["a", "b"] = Validation.Valid :=
  ⟨(C2_cardinality_check ["a", "b", "c", "d", "e", "f"]).1 (by decide),
   (C2_cardinality_check []).2.1 (by decide),
   (C2_cardinality_check ["a", "b"]).2.2 (by decide) (by decide) (by decide)⟩

/-- If all object deletions on `name` succeed, the deletion loop issues
exactly one call per response entry, in order, and succeeds. -/
theorem deleteVersions_all_ok (be : BucketBackend) (name : String)
    (hok : ∀ k v, be.deleteObject name k v = Except.ok ()) :
    ∀ vs : List ObjectVersion, deleteVersions be name vs =
      (vs.map fun o => Event.DeleteObjectCall name (o.key.getD "") (o.version_id.getD ""),
        Except.ok ())
  | [] => rfl
  | o :: rest => by
    simp [deleteVersions, hok, deleteVersions_all_ok be name hok rest]

/-- C9: the Empty stage is idempotent on an already-empty bucket: when
the version-listing call succeeds and reports no object versions, the
Empty stage issues no object-deletion call and returns success — so a
second run after a successful emptying again deletes nothing and does
not error. -/
theorem C9_empty_idempotent_on_empty_bucket (be : BucketBackend) (name : String)
    (out : ListObjectVersionsOutput)
    (hls : be.listObjectVersions name = Except.ok out)
    (hv : out.versions.getD [] = []) :
    empty_bucket be name = ([Event.ListVersionsCall name], Except.ok ()) := by
  simp [empty_bucket, hls, hv, deleteVersions]

/-- Witness for C9 at a concrete empty bucket "b". -/
theorem C9_empty_idempotent_on_empty_bucket_witness :
    okEmptyBackend.listObjectVersions "b" =
      Except.ok ⟨some [], some []⟩ ∧
    empty_bucket okEmptyBackend "b" = ([Event.ListVersionsCall "b"], Except.ok ()) :=
  ⟨rfl, C9_empty_idempotent_on_empty_bucket okEmptyBackend "b" ⟨some [], some []⟩ rfl rfl⟩

/-- When every record carries a name, name extraction succeeds and
returns exactly the names. -/
theorem extractNames_all_some :
    ∀ bs : List Bucket, (∀ b ∈ bs, b.name.isSome) →
      extractNames bs = some (bs.filterMap Bucket.name)
  | [], _ => rfl
  | b :: bs, h => by
    cases hb : b.name with
    | none =>
      have := h b (List.mem_cons_self b bs)
      rw [hb] at this
      exact absurd this (by decide)
    | some n =>
      have ih := extractNames_all_some bs fun x hx => h x (List.mem_cons_of_mem b hx)
      simp [extractNames, hb, ih, List.filterMap_cons]

/-- When some record lacks a name, name extraction hits the panic. -/
theorem extractNames_missing :
    ∀ bs : List Bucket, (∃ b ∈ bs, b.name = none) → extractNames bs = none
  | [], h => absurd h (by simp)
  | b :: bs, h => by
    cases hb : b.name with
    | none => simp [extractNames, hb]
    | some n =>
      obtain ⟨x, hx, hxn⟩ := h
      rcases List.mem_cons.mp hx with rfl | hx
      · rw [hb] at hxn; exact absurd hxn (by simp)
      · simp [extractNames, hb, extractNames_missing bs ⟨x, hx, hxn⟩]

/-- C10: on a successful listing reply, `list_buckets` returns the names
of the returned records when every record carries a name, and panics (the
`unwrap` on a missing name, modelled as `none`) when any record lacks a
name. -/
theorem C10_list_buckets_unwrap (out : ListBucketsOutput) :
    ((∀ b ∈ out.buckets.getD [], b.name.isSome) →
      list_buckets (Except.ok out) =
        some (Except.ok ((out.buckets.getD []).filterMap Bucket.name))) ∧
    ((∃ b ∈ out.buckets.getD [], b.name = none) →
      list_buckets (Except.ok out) = none) := by
  constructor
  · intro h
    simp [list_buckets, extractNames_all_some (out.buckets.getD []) h]
  · intro h
    simp [list_buckets, extractNames_missing (out.buckets.getD []) h]

/-- Witness for C10: a reply with names "a", "b" yields them; a reply in
which the second record lacks a name yields the modelled panic. -/
theorem C10_list_buckets_unwrap_witness :
    list_buckets (Except.ok ⟨some [⟨some "a"⟩, ⟨some "b"⟩]⟩) =
      some (Except.ok ["a", "b"]) ∧
    list_buckets (Except.ok ⟨some [⟨some "a"⟩, ⟨none⟩]⟩) = none := by
  constructor
  · have := (C10_list_buckets_unwrap ⟨some [⟨some "a"⟩, ⟨some "b"⟩]⟩).1 (by decide)
    simpa using this
  · exact (C10_list_buckets_unwrap ⟨some [⟨some "a"⟩, ⟨none⟩]⟩).2 ⟨⟨none⟩, by decide, rfl⟩

/-- C3 counterexample: with a backend whose version-listing call fails
with "boom", the Empty stage on bucket "b" fails, yet the executor still
issues the bucket-deletion call for "b" — refuting "does not attempt the
Delete stage". -/
theorem C3_counterexample_delete_still_attempted :
    (empty_bucket failListBackend "b").2 = Except.error "boom" ∧
    Event.DeleteBucketCall "b" ∈ run_batch failListBackend ["b"] := by
  refine ⟨rfl, ?_⟩
  decide

/-- C3 as amended: when the Empty stage fails for a bucket, the executor
records the failure (prints the attributable error line) and still
attempts the Delete stage for that bucket, before moving on to the next
bucket. -/
theorem C3_empty_failure_recorded_then_delete (be : BucketBackend)
    (bucket : String) (rest : List String) (err : String)
    (hfail : (empty_bucket be bucket).2 = Except.error err) :
    Event.ErrLine ("Error emptying bucket " ++ bucket ++ ": " ++ err)
      ∈ run_batch be (bucket :: rest) ∧
    Event.DeleteBucketCall bucket ∈ run_batch be (bucket :: rest) ∧
    run_batch be (bucket :: rest) =
      (Event.PrintLine ("Deleting bucket: " ++ bucket) ::
        ((empty_bucket be bucket).1
          ++ emptyErrLines bucket (empty_bucket be bucket).2
          ++ [Event.DeleteBucketCall bucket]
          ++ deleteErrLines bucket (delete_bucket be bucket).2))
        ++ run_batch be rest := by
  have h1 : emptyErrLines bucket (empty_bucket be bucket).2 =
      [Event.ErrLine ("Error emptying bucket " ++ bucket ++ ": " ++ err)] := by
    rw [hfail]; rfl
  refine ⟨?_, ?_, ?_⟩
  · simp [run_batch, h1, delete_bucket]
  · simp [run_batch, delete_bucket]
  · simp [run_batch, delete_bucket]

/-- Witness for the amended C3 at the concrete failing backend. -/
theorem C3_empty_failure_recorded_then_delete_witness :
    (empty_bucket failListBackend "b").2 = Except.error "boom" ∧
    (Event.ErrLine ("Error emptying bucket " ++ "b" ++ ": " ++ "boom")
      ∈ run_batch failListBackend ["b"] ∧
     Event.DeleteBucketCall "b" ∈ run_batch failListBackend ["b"] ∧
     run_batch failListBackend ["b"] =
       (Event.PrintLine ("Deleting bucket: " ++ "b") ::
         ((empty_bucket failListBackend "b").1
           ++ emptyErrLines "b" (empty_bucket failListBackend "b").2
           ++ [Event.DeleteBucketCall "b"]
           ++ deleteErrLines "b" (delete_bucket failListBackend "b").2))
         ++ run_batch failListBackend []) :=
  ⟨rfl, C3_empty_failure_recorded_then_delete failListBackend "b" [] "boom" rfl⟩

/-- C6 counterexample: with a backend reporting one delete marker
(key "k", version id "v") and no ordinary versions, the Empty stage on
bucket "b" issues no object-deletion call at all — refuting "one
object-deletion call per enumerated (key, version-id) pair including
delete markers". -/
theorem C6_counterexample_delete_marker_ignored :
    markerBackend.listObjectVersions "b" =
      Except.ok ⟨some [], some [⟨some "k", some "v"⟩]⟩ ∧
    (⟨some "k", some "v"⟩ : ObjectVersion) ∈
      ((⟨some [], some [⟨some "k", some "v"⟩]⟩ :
        ListObjectVersionsOutput).delete_markers.getD []) ∧
    Event.DeleteObjectCall "b" "k" "v" ∉ (empty_bucket markerBackend "b").1 := by
  refine ⟨rfl, by decide, by decide⟩

/-- C6 as amended: the Empty stage issues one version-listing call and —
provided each issued deletion succeeds (a failing deletion aborts the
remainder) — one object-deletion call per (key, version-id) pair of the
`versions` list of that single response, in order; the response's
`delete_markers` list is not enumerated or deleted. -/
theorem C6_empty_deletes_versions_list (be : BucketBackend) (name : String)
    (out : ListObjectVersionsOutput)
    (hls : be.listObjectVersions name = Except.ok out)
    (hok : ∀ k v, be.deleteObject name k v = Except.ok ()) :
    (empty_bucket be name).1 =
      Event.ListVersionsCall name ::
        ((out.versions.getD []).map fun o =>
          Event.DeleteObjectCall name (o.key.getD "") (o.version_id.getD "")) := by
  simp [empty_bucket, hls, deleteVersions_all_ok be name hok]

/-- Witness for the amended C6 at a backend with one ordinary version. -/
theorem C6_empty_deletes_versions_list_witness :
    (empty_bucket oneVersionBackend "b").1 =
      Event.ListVersionsCall "b" ::
        (([⟨some "k1", some "v1"⟩] : List ObjectVersion).map fun o =>
          Event.DeleteObjectCall "b" (o.key.getD "") (o.version_id.getD "")) :=
  C6_empty_deletes_versions_list oneVersionBackend "b"
    ⟨some [⟨some "k1", some "v1"⟩], none⟩ rfl (fun _ _ => rfl)

theorem listVersionTargets_cons_lvc (b : String) (tr : List Event) :
    listVersionTargets (Event.ListVersionsCall b :: tr) = b :: listVersionTargets tr := rfl

theorem listVersionTargets_cons_print (s : String) (tr : List Event) :
    listVersionTargets (Event.PrintLine s :: tr) = listVersionTargets tr := rfl

theorem listVersionTargets_cons_err (s : String) (tr : List Event) :
    listVersionTargets (Event.ErrLine s :: tr) = listVersionTargets tr := rfl

theorem listVersionTargets_cons_doc (b k v : String) (tr : List Event) :
    listVersionTargets (Event.DeleteObjectCall b k v :: tr) = listVersionTargets tr := rfl

theorem listVersionTargets_cons_dbc (b : String) (tr : List Event) :
    listVersionTargets (Event.DeleteBucketCall b :: tr) = listVersionTargets tr := rfl

theorem listVersionTargets_append (t1 t2 : List Event) :
    listVersionTargets (t1 ++ t2) = listVersionTargets t1 ++ listVersionTargets t2 := by
  simp [listVersionTargets, List.filterMap_append]

theorem deleteBucketTargets_cons_dbc (b : String) (tr : List Event) :
    deleteBucketTargets (Event.DeleteBucketCall b :: tr) = b :: deleteBucketTargets tr := rfl

theorem deleteBucketTargets_cons_print (s : String) (tr : List Event) :
    deleteBucketTargets (Event.PrintLine s :: tr) = deleteBucketTargets tr := rfl

theorem deleteBucketTargets_cons_err (s : String) (tr : List Event) :
    deleteBucketTargets (Event.ErrLine s :: tr) = deleteBucketTargets tr := rfl

theorem deleteBucketTargets_cons_doc (b k v : String) (tr : List Event) :
    deleteBucketTargets (Event.DeleteObjectCall b k v :: tr) = deleteBucketTargets tr := rfl

theorem deleteBucketTargets_cons_lvc (b : String) (tr : List Event) :
    deleteBucketTargets (Event.ListVersionsCall b :: tr) = deleteBucketTargets tr := rfl

theorem deleteBucketTargets_append (t1 t2 : List Event) :
    deleteBucketTargets (t1 ++ t2) = deleteBucketTargets t1 ++ deleteBucketTargets t2 := by
  simp [deleteBucketTargets, List.filterMap_append]

/-- The deletion loop issues only object-deletion calls: it performs no
version-listing call. -/
theorem listVersionTargets_deleteVersions (be : BucketBackend) (name : String) :
    ∀ vs : List ObjectVersion, listVersionTargets (deleteVersions be name vs).1 = []
  | [] => rfl
  | o :: rest => by
    cases h : be.deleteObject name (o.key.getD "") (o.version_id.getD "") with
    | error e => simp [deleteVersions, h, listVersionTargets_cons_doc, listVersionTargets]
    | ok u =>
      simp only [deleteVersions, h]
      rw [listVersionTargets_cons_doc]
      exact listVersionTargets_deleteVersions be name rest

/-- The deletion loop issues no bucket-deletion call. -/
theorem deleteBucketTargets_deleteVersions (be : BucketBackend) (name : String) :
    ∀ vs : List ObjectVersion, deleteBucketTargets (deleteVersions be name vs).1 = []
  | [] => rfl
  | o :: rest => by
    cases h : be.deleteObject name (o.key.getD "") (o.version_id.getD "") with
    | error e => simp [deleteVersions, h, deleteBucketTargets_cons_doc, deleteBucketTargets]
    | ok u =>
      simp only [deleteVersions, h]
      rw [deleteBucketTargets_cons_doc]
      exact deleteBucketTargets_deleteVersions be name rest

/-- Every Empty attempt — succeeding or failing — issues exactly one
version-listing call on its bucket. -/
theorem listVersionTargets_empty_bucket (be : BucketBackend) (name : String) :
    listVersionTargets (empty_bucket be name).1 = [name] := by
  cases h : be.listObjectVersions name with
  | error e => simp [empty_bucket, h]; rfl
  | ok out =>
    simp only [empty_bucket, h]
    rw [listVersionTargets_cons_lvc,
      listVersionTargets_deleteVersions be name (out.versions.getD [])]

/-- The Empty stage never issues a bucket-deletion call. -/
theorem deleteBucketTargets_empty_bucket (be : BucketBackend) (name : String) :
    deleteBucketTargets (empty_bucket be name).1 = [] := by
  cases h : be.listObjectVersions name with
  | error e => simp [empty_bucket, h]; rfl
  | ok out =>
    simp only [empty_bucket, h]
    rw [deleteBucketTargets_cons_lvc]
    exact deleteBucketTargets_deleteVersions be name (out.versions.getD [])

theorem listVersionTargets_emptyErrLines (bucket : String) (r : Except String Unit) :
    listVersionTargets (emptyErrLines bucket r) = [] := by
  cases r <;> rfl

theorem listVersionTargets_deleteErrLines (bucket : String) (r : Except String Unit) :
    listVersionTargets (deleteErrLines bucket r) = [] := by
  cases r <;> rfl

theorem deleteBucketTargets_emptyErrLines (bucket : String) (r : Except String Unit) :
    deleteBucketTargets (emptyErrLines bucket r) = [] := by
  cases r <;> rfl

theorem deleteBucketTargets_deleteErrLines (bucket : String) (r : Except String Unit) :
    deleteBucketTargets (deleteErrLines bucket r) = [] := by
  cases r <;> rfl

/-- C4: the executor processes a confirmed selection strictly in
selection order, issuing exactly one Empty attempt (version-listing
call) per selected bucket and exactly one Delete attempt (bucket-deletion
call) per selected bucket — so no failure on any bucket ever prevents
the Empty and Delete attempts on the subsequent buckets. -/
theorem C4_executor_order_and_isolation (be : BucketBackend) :
    ∀ buckets : List String,
      listVersionTargets (run_batch be buckets) = buckets ∧
      deleteBucketTargets (run_batch be buckets) = buckets
  | [] => ⟨rfl, rfl⟩
  | b :: rest => by
    obtain ⟨ih1, ih2⟩ := C4_executor_order_and_isolation be rest
    constructor
    · simp only [run_batch, delete_bucket, List.append_assoc, List.singleton_append,
        listVersionTargets_cons_print, listVersionTargets_append,
        listVersionTargets_empty_bucket, listVersionTargets_emptyErrLines,
        listVersionTargets_deleteErrLines, listVersionTargets_cons_dbc, ih1]
      rfl
    · simp only [run_batch, delete_bucket, List.append_assoc, List.singleton_append,
        deleteBucketTargets_cons_print, deleteBucketTargets_append,
        deleteBucketTargets_empty_bucket, deleteBucketTargets_emptyErrLines,
        deleteBucketTargets_deleteErrLines, deleteBucketTargets_cons_dbc, ih2]
      rfl

theorem emptyBeforeDelete_cons_print (seen : List String) (s : String) (tr : List Event) :
    emptyBeforeDelete seen (Event.PrintLine s :: tr) = emptyBeforeDelete seen tr := rfl

theorem emptyBeforeDelete_cons_dbc (seen : List String) (b : String) (tr : List Event) :
    emptyBeforeDelete seen (Event.DeleteBucketCall b :: tr) =
      (seen.contains b && emptyBeforeDelete seen tr) := rfl

theorem seenAfter_cons_dbc (seen : List String) (b : String) (tr : List Event) :
    seenAfter seen (Event.DeleteBucketCall b :: tr) = seenAfter seen tr := rfl

/-- Scanning an appended trace: the left part must check out under the
initial `seen` set, and the right part under the `seen` set accumulated
over the left part. -/
theorem emptyBeforeDelete_append (t1 : List Event) :
    ∀ (seen : List String) (t2 : List Event),
      emptyBeforeDelete seen (t1 ++ t2) =
        (emptyBeforeDelete seen t1 && emptyBeforeDelete (seenAfter seen t1) t2) := by
  induction t1 with
  | nil => intro seen t2; simp [emptyBeforeDelete, seenAfter]
  | cons e rest ih =>
    intro seen t2
    cases e <;> simp [emptyBeforeDelete, seenAfter, ih, Bool.and_assoc]

theorem seenAfter_deleteVersions (be : BucketBackend) (name : String) :
    ∀ (vs : List ObjectVersion) (seen : List String),
      seenAfter seen (deleteVersions be name vs).1 = seen
  | [], _ => rfl
  | o :: rest, seen => by
    cases h : be.deleteObject name (o.key.getD "") (o.version_id.getD "") with
    | error e => simp [deleteVersions, h, seenAfter]
    | ok u =>
      simp only [deleteVersions, h]
      exact seenAfter_deleteVersions be name rest seen

theorem emptyBeforeDelete_deleteVersions (be : BucketBackend) (name : String) :
    ∀ (vs : List ObjectVersion) (seen : List String),
      emptyBeforeDelete seen (deleteVersions be name vs).1 = true
  | [], _ => rfl
  | o :: rest, seen => by
    cases h : be.deleteObject name (o.key.getD "") (o.version_id.getD "") with
    | error e => simp [deleteVersions, h, emptyBeforeDelete]
    | ok u =>
      simp only [deleteVersions, h]
      exact emptyBeforeDelete_deleteVersions be name rest seen

/-- An Empty attempt adds exactly its bucket to the `seen` set. -/
theorem seenAfter_empty_bucket (be : BucketBackend) (name : String) (seen : List String) :
    seenAfter seen (empty_bucket be name).1 = name :: seen := by
  cases h : be.listObjectVersions name with
  | error e => simp [empty_bucket, h, seenAfter]
  | ok out =>
    simp only [empty_bucket, h]
    exact seenAfter_deleteVersions be name (out.versions.getD []) (name :: seen)

/-- An Empty attempt issues no bucket-deletion call, so it passes the
checker under any `seen` set. -/
theorem emptyBeforeDelete_empty_bucket (be : BucketBackend) (name : String)
    (seen : List String) :
    emptyBeforeDelete seen (empty_bucket be name).1 = true := by
  cases h : be.listObjectVersions name with
  | error e => simp [empty_bucket, h, emptyBeforeDelete]
  | ok out =>
    simp only [empty_bucket, h]
    exact emptyBeforeDelete_deleteVersions be name (out.versions.getD []) (name :: seen)

theorem seenAfter_emptyErrLines (seen : List String) (b : String) (r : Except String Unit) :
    seenAfter seen (emptyErrLines b r) = seen := by
  cases r <;> rfl

theorem emptyBeforeDelete_emptyErrLines (seen : List String) (b : String)
    (r : Except String Unit) :
    emptyBeforeDelete seen (emptyErrLines b r) = true := by
  cases r <;> rfl

theorem seenAfter_deleteErrLines (seen : List String) (b : String) (r : Except String Unit) :
    seenAfter seen (deleteErrLines b r) = seen := by
  cases r <;> rfl

theorem emptyBeforeDelete_deleteErrLines (seen : List String) (b : String)
    (r : Except String Unit) :
    emptyBeforeDelete seen (deleteErrLines b r) = true := by
  cases r <;> rfl

/-- The executor's trace passes the empty-before-delete checker from any
initial `seen` set. -/
theorem emptyBeforeDelete_run_batch (be : BucketBackend) :
    ∀ (buckets : List String) (seen : List String),
      emptyBeforeDelete seen (run_batch be buckets) = true
  | [], _ => rfl
  | b :: rest, seen => by
    simp only [run_batch, delete_bucket, List.append_assoc, List.singleton_append,
      emptyBeforeDelete_cons_print, emptyBeforeDelete_append,
      emptyBeforeDelete_empty_bucket, seenAfter_empty_bucket,
      emptyBeforeDelete_emptyErrLines, seenAfter_emptyErrLines,
      emptyBeforeDelete_cons_dbc, Bool.true_and]
    simp only [List.contains_cons, beq_self_eq_true, Bool.true_or, Bool.true_and,
      emptyBeforeDelete_deleteErrLines, seenAfter_cons_dbc, seenAfter_deleteErrLines]
    exact emptyBeforeDelete_run_batch be rest (b :: seen)

/-- C7: in every run of the executor, a bucket-deletion call for a given
bucket occurs only after an Empty attempt (successful or not) on that
same bucket: the trace passes the empty-before-delete checker starting
from the empty `seen` set. -/
theorem C7_delete_only_after_empty_attempt (be : BucketBackend) (buckets : List String) :
    emptyBeforeDelete [] (run_batch be buckets) = true :=
  emptyBeforeDelete_run_batch be buckets []

/-- Every event shown before the confirmation decision is console output
or a prompt, never a storage-backend call. -/
theorem isBackendCall_mainHeader (found selected : List String) :
    ∀ e ∈ mainHeader found selected, isBackendCall e = false := by
  intro e he
  simp only [mainHeader, List.mem_cons, List.not_mem_nil, or_false] at he
  rcases he with rfl | rfl | rfl | rfl | rfl
  all_goals rfl

/-- C5: whenever the confirmation prompt yields a non-affirmative
response (an explicit "no", the default, or an input error — all of which
make `unwrap_or(false)` produce `false`), the run issues no backend call
at all (in particular no empty-bucket and no delete-bucket call) and the
process exits with a non-zero status. -/
theorem C5_cancellation_no_deletions (inp : MainInputs) (be : BucketBackend)
    (tr : List Event) (code : Nat)
    (hconf : inp.confirmResponse.getD false = false)
    (hrun : main_run inp be = some (tr, code)) :
    (∀ e ∈ tr, isBackendCall e = false) ∧ code ≠ 0 := by
  cases hlb : list_buckets inp.listBucketsResponse with
  | none => rw [main_run, hlb] at hrun; cases hrun
  | some r =>
    cases r with
    | error err =>
      rw [main_run, hlb] at hrun
      simp only [Option.some.injEq, Prod.mk.injEq] at hrun
      obtain ⟨htr, hcode⟩ := hrun
      subst htr
      subst hcode
      refine ⟨?_, by omega⟩
      intro e he
      simp only [List.mem_cons, List.not_mem_nil, or_false] at he
      rcases he with rfl | rfl
      all_goals rfl
    | ok found =>
      rw [main_run, hlb] at hrun
      simp only [hconf, if_neg] at hrun
      simp only [Bool.false_eq_true, if_false, Option.some.injEq, Prod.mk.injEq] at hrun
      obtain ⟨htr, hcode⟩ := hrun
      subst htr
      subst hcode
      refine ⟨?_, by omega⟩
      intro e he
      rcases List.mem_append.mp he with h1 | h2
      · exact isBackendCall_mainHeader found inp.selection e h1
      · simp only [List.mem_cons, List.not_mem_nil, or_false] at h2
        subst h2
        rfl

/-- Witness for C5: the cancellation scenario with buckets
"my-logs-2023" and "temp-cache" selected and the confirmation answered
"no". -/
theorem C5_cancellation_no_deletions_witness :
    cancelInputs.confirmResponse.getD false = false ∧
    main_run cancelInputs okEmptyBackend =
      some (mainHeader ["my-logs-2023", "temp-cache"] ["my-logs-2023", "temp-cache"]
        ++ [Event.PrintLine "Quitting"], 1) ∧
    ((∀ e ∈ mainHeader ["my-logs-2023", "temp-cache"] ["my-logs-2023", "temp-cache"]
        ++ [Event.PrintLine "Quitting"], isBackendCall e = false) ∧ (1 : Nat) ≠ 0) :=
  ⟨rfl, rfl, C5_cancellation_no_deletions cancelInputs okEmptyBackend _ _ rfl rfl⟩

/-- C8: a run whose enumeration succeeds and whose confirmation is
affirmative always finishes the batch, prints the final completion line
last, and exits 0 — whatever per-bucket failures the backend produces;
and a run whose enumeration fails exits 1 having produced only the
initial progress line and the error line: no prompt and no deletion. -/
theorem C8_exit_codes (inp : MainInputs) (be : BucketBackend) :
    (∀ names, list_buckets inp.listBucketsResponse = some (Except.ok names) →
      inp.confirmResponse = some true →
      main_run inp be =
        some (mainHeader names inp.selection ++ run_batch be inp.selection
          ++ [Event.PrintLine "Done! 💥"], 0) ∧
      (mainHeader names inp.selection ++ run_batch be inp.selection
        ++ [Event.PrintLine "Done! 💥"]).getLast? = some (Event.PrintLine "Done! 💥")) ∧
    (∀ err, list_buckets inp.listBucketsResponse = some (Except.error err) →
      main_run inp be =
        some ([Event.PrintLine "Finding buckets...", Event.ErrLine err], 1)) := by
  constructor
  · intro names hlb hconf
    constructor
    · simp [main_run, hlb, hconf]
    · rw [List.getLast?_append_cons]
      rfl
  · intro err hlb
    simp [main_run, hlb]

/-- Witness for C8: a completed run against a backend whose bucket
deletions all fail still exits 0 with the completion line last, and a
run whose enumeration fails with "netfail" exits 1. -/
theorem C8_exit_codes_witness :
    (main_run doneInputs failDeleteBackend =
      some (mainHeader ["a"] ["a"] ++ run_batch failDeleteBackend ["a"]
        ++ [Event.PrintLine "Done! 💥"], 0) ∧
     (mainHeader ["a"] ["a"] ++ run_batch failDeleteBackend ["a"]
        ++ [Event.PrintLine "Done! 💥"]).getLast? = some (Event.PrintLine "Done! 💥")) ∧
    main_run errInputs failDeleteBackend =
      some ([Event.PrintLine "Finding buckets...", Event.ErrLine "netfail"], 1) :=
  ⟨(C8_exit_codes doneInputs failDeleteBackend).1 ["a"] rfl rfl,
   (C8_exit_codes errInputs failDeleteBackend).2 "netfail" rfl⟩

end S3Bang
